import Mathlib

/-!
Verification of the metropolis session/conversation orchestration layer.

The definitions below are a shallow embedding of the Python sources:
* `src/metropolis/utils/websocket_handler.py` (StreamHandler),
* `src/metropolis/services/agent_manager.py` (AgentManager),
* `src/metropolis/services/workflow_service.py` (WorkflowService),
* `src/metropolis/services/jsonl_handler.py` (JSONLHandler),
* `src/metropolis/db/workspace_thread_store.py` (WorkspaceThreadStore),
* `src/ulam/db/session_store.py` (SessionStore).

MongoDB collections are modelled as Lean lists of documents; `insert_one`
against a unique index is modelled as an `Except` that fails on a duplicate
key; `update_one`/`delete_one` update or remove the first matching document;
`find_one` with a sort returns a document achieving the extremal key.
-/

namespace Metropolis

/-! ## Streaming wire model (`websocket_handler.py`) -/

/-- The `input` dict of a `ToolUseBlock`: an opaque raw payload plus the
optional `"todos"` entry that `_create_tool_use_message` special-cases for
the `TodoWrite` tool (`todos = some v` models `"todos" in block.input`). -/
structure ToolInput where
  raw : String
  todos : Option String
deriving DecidableEq, Repr

/-- The `delta` field of a `content_block_delta` stream event. -/
inductive Delta
  | text_delta (text : String)
  | thinking_delta (thinking : String)
  | other_delta
deriving DecidableEq, Repr

/-- The `event` dict carried by a `StreamEvent`: `_process_stream_event`
only distinguishes `content_block_delta` from every other event type. -/
inductive SdkEvent
  | content_block_delta (delta : Delta)
  | other_event
deriving DecidableEq, Repr

/-- A content block inside an `AssistantMessage` or `UserMessage`;
the handler only looks at `ToolUseBlock` and `ToolResultBlock`. -/
inductive SdkBlock
  | toolUseBlock (name : String) (input : ToolInput)
  | toolResultBlock (content : String) (tool_use_id : Option String)
  | otherBlock
deriving DecidableEq, Repr

/-- The runtime message kinds distinguished by `process_message`. -/
inductive SdkPayload
  | streamEvent (event : SdkEvent)
  | assistantMessage (content : List SdkBlock)
  | userMessage (content : List SdkBlock)
  | resultMessage (total_cost_usd : Option ℚ) (input_tokens output_tokens : Option ℤ)
  | otherMessage
deriving DecidableEq, Repr

/-- A message received from the agent runtime; `session_id = some s` models
`hasattr(message, "session_id")` being true with value `s`
(see `extract_session_id_from_message`). -/
structure SdkMessage where
  session_id : Option String
  payload : SdkPayload
deriving DecidableEq, Repr

/-- A JSON message sent to the client (WebSocket or SSE). -/
inductive WireEvent
  | text (content : String)
  | thinking (content : String)
  | tool_use (toolName : String) (toolInput : ToolInput) (todos : Option String)
  | tool_result (content : String) (toolCallId : Option String)
  | session_id_captured (session_id : String)
  | complete
  | errorEvent (message : String)
deriving DecidableEq, Repr

/-- `StreamHandler._process_stream_event`: only `content_block_delta` events
with a non-empty `text_delta` or `thinking_delta` produce a client event. -/
def processStreamEvent (event : SdkEvent) : List WireEvent :=
  match event with
  | .content_block_delta (.thinking_delta t) =>
      if t ≠ "" then [.thinking t] else []
  | .content_block_delta (.text_delta t) =>
      if t ≠ "" then [.text t] else []
  | .content_block_delta .other_delta => []
  | .other_event => []

/-- `StreamHandler._create_tool_use_message`: the `todos` field is copied out
of the input only for the `TodoWrite` tool. -/
def createToolUseMessage (name : String) (input : ToolInput) : WireEvent :=
  .tool_use name input (if name = "TodoWrite" then input.todos else none)

/-- `StreamHandler._create_tool_result_message`. -/
def createToolResultMessage (content : String) (tool_use_id : Option String) :
    WireEvent :=
  .tool_result content tool_use_id

/-- `StreamHandler.process_message`: dispatch on the runtime message type. -/
def process_message (m : SdkMessage) : List WireEvent :=
  match m.payload with
  | .streamEvent e => processStreamEvent e
  | .assistantMessage content =>
      content.filterMap (fun b =>
        match b with
        | .toolUseBlock name input => some (createToolUseMessage name input)
        | _ => none)
  | .userMessage content =>
      content.filterMap (fun b =>
        match b with
        | .toolResultBlock c tid => some (createToolResultMessage c tid)
        | _ => none)
  | .resultMessage _ _ _ => []
  | .otherMessage => []

/-! ## Content-block accumulation (the StreamAccumulator fold) -/

/-- An accumulated content block as stored in `content_blocks`: either a
`{type, content}` dict built from deltas, or a complete tool event dict
appended verbatim. -/
inductive ContentBlock
  | text (content : String)
  | thinking (content : String)
  | tool_use (toolName : String) (toolInput : ToolInput) (todos : Option String)
  | tool_result (content : String) (toolCallId : Option String)
deriving DecidableEq, Repr

/-- The `"type"` field of an accumulated block. -/
def ContentBlock.typeField : ContentBlock → String
  | .text _ => "text"
  | .thinking _ => "thinking"
  | .tool_use _ _ _ => "tool_use"
  | .tool_result _ _ => "tool_result"

/-- One step of the chunk-accumulation loop in
`AgentManager.send_query_with_persistence` (the body guarded by
`json_msg["type"] in ["text", "thinking"]` / `["tool_use", "tool_result"]`):
a text or thinking delta is merged into the trailing block when the trailing
block has the same type, otherwise a new block is appended; tool events are
appended as complete blocks; any other message type is not accumulated. -/
def agentAccumStep (content_blocks : List ContentBlock) (json_msg : WireEvent) :
    List ContentBlock :=
  match json_msg with
  | .text c =>
      match content_blocks.getLast? with
      | some (.text c0) => content_blocks.dropLast ++ [.text (c0 ++ c)]
      | _ => content_blocks ++ [.text c]
  | .thinking c =>
      match content_blocks.getLast? with
      | some (.thinking c0) => content_blocks.dropLast ++ [.thinking (c0 ++ c)]
      | _ => content_blocks ++ [.thinking c]
  | .tool_use n i t => content_blocks ++ [.tool_use n i t]
  | .tool_result c tid => content_blocks ++ [.tool_result c tid]
  | _ => content_blocks

/-- One step of the chunk-accumulation loop in
`WorkflowService.execute_workflow` (the SSE path); the Python source is the
same accumulation code repeated verbatim in `workflow_service.py`. -/
def workflowAccumStep (content_blocks : List ContentBlock) (ws_message : WireEvent) :
    List ContentBlock :=
  match ws_message with
  | .text c =>
      match content_blocks.getLast? with
      | some (.text c0) => content_blocks.dropLast ++ [.text (c0 ++ c)]
      | _ => content_blocks ++ [.text c]
  | .thinking c =>
      match content_blocks.getLast? with
      | some (.thinking c0) => content_blocks.dropLast ++ [.thinking (c0 ++ c)]
      | _ => content_blocks ++ [.thinking c]
  | .tool_use n i t => content_blocks ++ [.tool_use n i t]
  | .tool_result c tid => content_blocks ++ [.tool_result c tid]
  | _ => content_blocks

/-- Folding a whole event sequence, starting from the empty block list. -/
def accumulate (events : List WireEvent) : List ContentBlock :=
  events.foldl agentAccumStep []

/-! ## Durable store model (`ulam/db/session_store.py`,
`metropolis/db/workspace_thread_store.py`)

Collections are lists of documents in insertion order.  `insert_one`
against a unique index fails with a duplicate-key error when a document
with the same key is present; `update_one` updates the first matching
document; `delete_one` removes the first matching document;
`delete_many` removes every matching document. -/

inductive MessageRole
  | user
  | assistant
deriving DecidableEq, Repr

/-- `ClaudeAgentMessage` (ulam `models.py`), restricted to the fields the
orchestration layer reads or writes. -/
structure ClaudeAgentMessage where
  session_id : String
  sequence : ℤ
  role : MessageRole
  content_blocks : List ContentBlock
  duration_ms : Option ℤ
  cost_usd : Option ℚ
  input_tokens : Option ℤ
  output_tokens : Option ℤ
deriving DecidableEq, Repr

/-- `ClaudeAgentSession` (ulam `models.py`), restricted likewise. -/
structure ClaudeAgentSession where
  claude_session_id : String
  message_count : ℤ
  is_active : Bool
  total_cost_usd : ℚ
  total_input_tokens : ℤ
  total_output_tokens : ℤ
deriving DecidableEq, Repr

/-- A fresh `ClaudeAgentSession(claude_session_id=sid)` with the pydantic
field defaults. -/
def ClaudeAgentSession.new (sid : String) : ClaudeAgentSession :=
  { claude_session_id := sid, message_count := 0, is_active := true,
    total_cost_usd := 0, total_input_tokens := 0, total_output_tokens := 0 }

/-- `WorkspaceMessage` (metropolis `models.py`), restricted likewise. -/
structure WorkspaceMessage where
  claude_session_id : String
  sequence : ℤ
  role : MessageRole
  content_blocks : List ContentBlock
  duration_ms : Option ℤ
  cost_usd : Option ℚ
  input_tokens : Option ℤ
  output_tokens : Option ℤ
deriving DecidableEq, Repr

/-- `WorkspaceThread` (metropolis `models.py`), restricted likewise. -/
structure WorkspaceThread where
  workspace_id : String
  execution_environment : String
  claude_session_id : String
  message_count : ℤ
  is_active : Bool
  total_cost_usd : ℚ
  total_input_tokens : ℤ
  total_output_tokens : ℤ
deriving DecidableEq, Repr

/-- A stored replay-log line document
(`WorkspaceThreadJSONLLine` / `ClaudeAgentJSONLLine`), scoped to one
session. -/
structure JsonlDoc where
  line_number : ℤ
  line : String
deriving DecidableEq, Repr

/-- Mongo `update_one`: apply `f` to the first document satisfying `p`. -/
def updateFirst (p : α → Bool) (f : α → α) : List α → List α
  | [] => []
  | a :: rest => if p a then f a :: rest else a :: updateFirst p f rest

/-- Mongo `delete_one`: remove the first document satisfying `p`. -/
def removeFirst (p : α → Bool) : List α → List α
  | [] => []
  | a :: rest => if p a then rest else a :: removeFirst p rest

/-- Mongo `find_one` with a descending sort on an integer key: returns a
document achieving the maximal key, or `none` on an empty collection. -/
def mongoFindOneSortDesc (key : α → ℤ) : List α → Option α
  | [] => none
  | d :: rest =>
      match mongoFindOneSortDesc key rest with
      | none => some d
      | some b => if key b > key d then some b else some d

/-- Errors surfaced by the store wrappers. -/
inductive StoreError
  | duplicateKey
deriving DecidableEq, Repr

namespace SessionStore

/-- The collections owned by the session store: `claude_agent_sdk_sessions`
and `claude_agent_sdk_messages`. -/
structure State where
  sessions : List ClaudeAgentSession
  messages : List ClaudeAgentMessage
deriving DecidableEq, Repr

/-- `SessionStore.create_session`: `insert_one` against the unique index on
`claude_session_id`. -/
def create_session (st : State) (s : ClaudeAgentSession) : Except StoreError State :=
  if st.sessions.any (fun t => t.claude_session_id = s.claude_session_id) then
    .error .duplicateKey
  else
    .ok { st with sessions := st.sessions ++ [s] }

/-- `SessionStore.get_session`: `find_one` on `claude_session_id`. -/
def get_session (st : State) (sid : String) : Option ClaudeAgentSession :=
  st.sessions.find? (fun t => t.claude_session_id = sid)

/-- `SessionStore.save_message`: `insert_one` against the unique index on
`(session_id, sequence)`. -/
def save_message (st : State) (m : ClaudeAgentMessage) : Except StoreError State :=
  if st.messages.any
      (fun x => x.session_id = m.session_id ∧ x.sequence = m.sequence) then
    .error .duplicateKey
  else
    .ok { st with messages := st.messages ++ [m] }

/-- `SessionStore.get_next_sequence`: `find_one` filtered on the session,
sorted by `sequence` descending; `sequence + 1` when a message exists,
`0` otherwise. -/
def get_next_sequence (messages : List ClaudeAgentMessage) (sid : String) : ℤ :=
  match mongoFindOneSortDesc (fun m => m.sequence)
      (messages.filter (fun m => m.session_id = sid)) with
  | some last_message => last_message.sequence + 1
  | none => 0

/-- `SessionStore.increment_message_count`: `update_one` with
`$inc message_count`. -/
def increment_message_count (st : State) (sid : String) : State :=
  { st with
      sessions := updateFirst (fun s => s.claude_session_id = sid)
        (fun s => { s with message_count := s.message_count + 1 }) st.sessions }

/-- `SessionStore.update_session_usage`: `update_one` with
`$inc {total_cost_usd, total_input_tokens, total_output_tokens}` — note the
cost is *incremented* in this store. -/
def update_session_usage (st : State) (sid : String)
    (cost_usd : ℚ) (input_tokens output_tokens : ℤ) : State :=
  { st with
      sessions := updateFirst (fun s => s.claude_session_id = sid)
        (fun s =>
          { s with
              total_cost_usd := s.total_cost_usd + cost_usd,
              total_input_tokens := s.total_input_tokens + input_tokens,
              total_output_tokens := s.total_output_tokens + output_tokens })
        st.sessions }

/-- `SessionStore.delete_session`: `delete_many` on the session's messages,
then `delete_one` on the session; returns `deleted_count > 0`. -/
def delete_session (st : State) (sid : String) : State × Bool :=
  let messages := st.messages.filter (fun m => ¬ m.session_id = sid)
  let existed := st.sessions.any (fun s => s.claude_session_id = sid)
  let sessions := removeFirst (fun s => s.claude_session_id = sid) st.sessions
  ({ sessions := sessions, messages := messages }, existed)

end SessionStore

namespace WorkspaceThreadStore

/-- The collections owned by the workspace thread store: `workspace_threads`,
`workspace_messages` and `workspace_thread_jsonl_lines`. -/
structure State where
  threads : List WorkspaceThread
  messages : List WorkspaceMessage
  jsonl_lines : List (String × JsonlDoc)
deriving DecidableEq, Repr

/-- `WorkspaceThreadStore.get_thread`: `find_one` on `claude_session_id`. -/
def get_thread (st : State) (sid : String) : Option WorkspaceThread :=
  st.threads.find? (fun t => t.claude_session_id = sid)

/-- `WorkspaceThreadStore.save_message`: `insert_one` against the unique
index on `(claude_session_id, sequence)`. -/
def save_message (st : State) (m : WorkspaceMessage) : Except StoreError State :=
  if st.messages.any
      (fun x => x.claude_session_id = m.claude_session_id ∧ x.sequence = m.sequence) then
    .error .duplicateKey
  else
    .ok { st with messages := st.messages ++ [m] }

/-- `WorkspaceThreadStore.get_next_sequence`: same shape as the ulam store's
implementation, over `workspace_messages`. -/
def get_next_sequence (messages : List WorkspaceMessage) (sid : String) : ℤ :=
  match mongoFindOneSortDesc (fun m => m.sequence)
      (messages.filter (fun m => m.claude_session_id = sid)) with
  | some last_message => last_message.sequence + 1
  | none => 0

/-- `WorkspaceThreadStore.increment_message_count`. -/
def increment_message_count (st : State) (sid : String) : State :=
  { st with
      threads := updateFirst (fun t => t.claude_session_id = sid)
        (fun t => { t with message_count := t.message_count + 1 }) st.threads }

/-- `WorkspaceThreadStore.update_thread_usage`: `update_one` with
`$inc {total_input_tokens, total_output_tokens}` and
`$set total_cost_usd` — the cost is *replaced* in this store. -/
def update_thread_usage (st : State) (sid : String)
    (cost_usd : ℚ) (input_tokens output_tokens : ℤ) : State :=
  { st with
      threads := updateFirst (fun t => t.claude_session_id = sid)
        (fun t =>
          { t with
              total_cost_usd := cost_usd,
              total_input_tokens := t.total_input_tokens + input_tokens,
              total_output_tokens := t.total_output_tokens + output_tokens })
        st.threads }

/-- `WorkspaceThreadStore.save_jsonl_lines`: `delete_many` on the session's
existing lines, then (only when `lines` is non-empty) a bulk insert of the
lines numbered consecutively from 0. -/
def save_jsonl_lines (st : State) (sid : String) (lines : List String) : State :=
  let st1 := { st with jsonl_lines := st.jsonl_lines.filter (fun j => ¬ j.1 = sid) }
  if lines.isEmpty then st1
  else
    { st1 with
        jsonl_lines := st1.jsonl_lines
          ++ lines.enum.map (fun p => (sid, JsonlDoc.mk (p.1 : ℤ) p.2)) }

/-- `WorkspaceThreadStore.get_jsonl_lines`: the session's lines sorted by
`line_number` ascending (line numbers are unique per session, so a stable
insertion sort models the Mongo sort). -/
def get_jsonl_lines (st : State) (sid : String) : List String :=
  (List.insertionSort (fun a b => a.line_number ≤ b.line_number)
      ((st.jsonl_lines.filter (fun j => j.1 = sid)).map (fun j => j.2))).map
    (fun d => d.line)

/-- `WorkspaceThreadStore.delete_jsonl_lines`: `delete_many` on the
session's replay-log lines. -/
def delete_jsonl_lines (st : State) (sid : String) : State :=
  { st with jsonl_lines := st.jsonl_lines.filter (fun j => ¬ j.1 = sid) }

/-- `WorkspaceThreadStore.delete_thread`: `delete_many` on the session's
messages, `delete_jsonl_lines`, then `delete_one` on the thread; returns
`deleted_count > 0`. -/
def delete_thread (st : State) (sid : String) : State × Bool :=
  let st1 := { st with
    messages := st.messages.filter (fun m => ¬ m.claude_session_id = sid) }
  let st2 := delete_jsonl_lines st1 sid
  let existed := st2.threads.any (fun t => t.claude_session_id = sid)
  let st3 := { st2 with
    threads := removeFirst (fun t => t.claude_session_id = sid) st2.threads }
  (st3, existed)

end WorkspaceThreadStore

/-! ## Replay-log mirror (`jsonl_handler.py`)

A session's local JSONL file is modelled as `Option (List Char)`: `none`
when the file does not exist, otherwise its character content.  Reading a
text file in Python uses universal newlines: `"\r\n"` and lone `"\r"` are
line terminators like `"\n"`. -/

/-- Universal-newline translation: `"\r\n"` and lone `"\r"` become `"\n"`. -/
def translateCR : List Char → List Char
  | [] => []
  | '\r' :: '\n' :: rest => '\n' :: translateCR rest
  | '\r' :: rest => '\n' :: translateCR rest
  | c :: rest => c :: translateCR rest

/-- Split on `'\n'`; a trailing newline yields a final empty piece. -/
def splitOnNl : List Char → List (List Char)
  | [] => [[]]
  | c :: rest =>
      if c = '\n' then [] :: splitOnNl rest
      else
        match splitOnNl rest with
        | h :: t => (c :: h) :: t
        | [] => [[c]]

/-- `JSONLHandler.read_jsonl_file`: `[]` when the file does not exist;
otherwise the file's lines with trailing newline characters stripped and
empty lines skipped, in file order. -/
def read_jsonl_file (file : Option (List Char)) : List String :=
  match file with
  | none => []
  | some content =>
      ((splitOnNl (translateCR content)).map (fun cs => String.mk cs)).filter
        (fun l => ¬ l = "")

/-- `JSONLHandler.write_jsonl_file`: each line followed by `"\n"`
(overwrites the previous content). -/
def write_jsonl_file (lines : List String) : List Char :=
  (lines.map (fun l => l.data ++ ['\n'])).flatten

/-- `JSONLHandler.persist_to_mongodb`: read the local file and, only when it
yielded at least one line, replace the session's stored lines with
`save_jsonl_lines`. -/
def persist_to_mongodb (st : WorkspaceThreadStore.State) (sid : String)
    (file : Option (List Char)) : WorkspaceThreadStore.State :=
  let lines := read_jsonl_file file
  if lines.isEmpty then st
  else WorkspaceThreadStore.save_jsonl_lines st sid lines

/-- `JSONLHandler.restore_from_mongodb`: read the session's stored lines
and, only when there is at least one, overwrite the local file; returns the
resulting file state. -/
def restore_from_mongodb (st : WorkspaceThreadStore.State) (sid : String)
    (file : Option (List Char)) : Option (List Char) :=
  let lines := WorkspaceThreadStore.get_jsonl_lines st sid
  if lines.isEmpty then file
  else some (write_jsonl_file lines)

/-- The session's stored replay-log line texts (in collection order). -/
def storedLineSet (st : WorkspaceThreadStore.State) (sid : String) : List String :=
  (st.jsonl_lines.filter (fun j => j.1 = sid)).map (fun j => j.2.line)

/-- A line that the write/read cycle keeps verbatim: non-empty interior
characters only (no line terminators). -/
def cleanLine (l : String) : Prop := '\n' ∉ l.data ∧ '\r' ∉ l.data

instance (l : String) : Decidable (cleanLine l) := by
  unfold cleanLine; infer_instance

/-! ## Agent manager (`agent_manager.py`) and gateway (`agent_routes.py`) -/

/-- Errors raised by `AgentManager`; `sessionBusy` is named by the spec but
produced nowhere in the source. -/
inductive AgentManagerError
  | noClientFound (sid : String)
  | sessionBusy (sid : String)
  | couldNotCaptureSessionId
deriving DecidableEq, Repr

/-- The shared-state prefix of `send_query_with_persistence` before its
first await: one read of `self.clients` (`self.clients.get(...)`), raising
`No client found` when no cached client exists.  The method acquires no
lock and writes no busy marker. -/
def sendQueryEntry (clients : List String) (claude_session_id : String) :
    Except AgentManagerError Unit :=
  if clients.contains claude_session_id then .ok ()
  else .error (.noClientFound claude_session_id)

/-- Outcome pair of two concurrent `send_query_with_persistence` calls for
the same session id, under any interleaving: each call's entry is a single
atomic read of `self.clients` and neither call writes the map, so both
entries observe the same `clients` value. -/
def twoConcurrentSends (clients : List String) (sid : String) :
    Except AgentManagerError Unit × Except AgentManagerError Unit :=
  (sendQueryEntry clients sid, sendQueryEntry clients sid)

/-- One item of the runtime's response stream: either a message delivered by
`client.receive_response()` or the iterator raising mid-stream. -/
inductive RuntimeItem
  | msg (m : SdkMessage)
  | runtimeFailure (err : String)
deriving DecidableEq, Repr

/-- Loop state of the `async for message in client.receive_response()` body
of `send_query_with_persistence`. -/
structure SendLoopState where
  events : List WireEvent
  content_blocks : List ContentBlock
  cost_usd : Option ℚ
  input_tokens : Option ℤ
  output_tokens : Option ℤ
  failure : Option String
deriving DecidableEq, Repr

def initSendLoopState : SendLoopState :=
  { events := [], content_blocks := [], cost_usd := none, input_tokens := none,
    output_tokens := none, failure := none }

/-- The response loop of `send_query_with_persistence`: usage fields are
taken from a `ResultMessage`, every processed chunk is yielded and
accumulated, and an iterator failure aborts the loop (the exception
propagates out of the generator). -/
def sendQueryReceiveLoop : List RuntimeItem → SendLoopState → SendLoopState
  | [], s => s
  | .runtimeFailure err :: _, s => { s with failure := some err }
  | .msg m :: rest, s =>
      let s1 :=
        match m.payload with
        | .resultMessage c i o =>
            { s with cost_usd := c, input_tokens := i, output_tokens := o }
        | _ => s
      let json_messages := process_message m
      let s2 := { s1 with
        events := s1.events ++ json_messages,
        content_blocks := json_messages.foldl agentAccumStep s1.content_blocks }
      sendQueryReceiveLoop rest s2

/-- Loop state of the response loop of `create_session_with_first_query`,
which additionally captures the runtime-reported session id. -/
structure FirstQueryLoopState where
  events : List WireEvent
  content_blocks : List ContentBlock
  cost_usd : Option ℚ
  input_tokens : Option ℤ
  output_tokens : Option ℤ
  session_id_captured : Option String
  failure : Option String
deriving DecidableEq, Repr

def initFirstQueryLoopState : FirstQueryLoopState :=
  { events := [], content_blocks := [], cost_usd := none, input_tokens := none,
    output_tokens := none, session_id_captured := none, failure := none }

/-- The response loop of `create_session_with_first_query`: the first
message carrying a `session_id` attribute is captured
(`extract_session_id_from_message`), then usage and chunks are handled as in
`send_query_with_persistence`. -/
def firstQueryReceiveLoop : List RuntimeItem → FirstQueryLoopState → FirstQueryLoopState
  | [], s => s
  | .runtimeFailure err :: _, s => { s with failure := some err }
  | .msg m :: rest, s =>
      let s0 := { s with
        session_id_captured :=
          match s.session_id_captured with
          | some sid => some sid
          | none => m.session_id }
      let s1 :=
        match m.payload with
        | .resultMessage c i o =>
            { s0 with cost_usd := c, input_tokens := i, output_tokens := o }
        | _ => s0
      let json_messages := process_message m
      let s2 := { s1 with
        events := s1.events ++ json_messages,
        content_blocks := json_messages.foldl agentAccumStep s1.content_blocks }
      firstQueryReceiveLoop rest s2

/-- Whether a wire event is an `error` event. -/
def isErrorEvent : WireEvent → Bool
  | .errorEvent _ => true
  | _ => false

/-- The user message `send_query_with_persistence` saves before sending the
query: sequence from `get_next_sequence`, a single text block holding the
prompt. -/
def userMessageOf (st : SessionStore.State) (sid prompt : String) :
    ClaudeAgentMessage :=
  { session_id := sid,
    sequence := SessionStore.get_next_sequence st.messages sid,
    role := .user, content_blocks := [.text prompt], duration_ms := none,
    cost_usd := none, input_tokens := none, output_tokens := none }

/-- Result of one turn of a generator: the events it yielded, the store it
left behind, and the exception it raised, if any (with the message of the
raised error). -/
structure TurnResult where
  events : List WireEvent
  store : SessionStore.State
  failed : Option String
deriving DecidableEq, Repr

/-- `AgentManager.send_query_with_persistence` after its client lookup, run
against a runtime response stream.  The user message is saved (at
`get_next_sequence`) before the query is sent; the response loop then runs;
on loop failure the exception propagates with the store as of the user
save; otherwise the assistant message is saved at a fresh sequence, counts
and usage are updated, and a `complete` event is yielded.  Wall-clock
`duration_ms` is not modelled (recorded as 0). -/
def send_query_with_persistence_run (st0 : SessionStore.State)
    (sid prompt : String) (items : List RuntimeItem) : TurnResult :=
  match SessionStore.save_message st0 (userMessageOf st0 sid prompt) with
  | .error _ => { events := [], store := st0, failed := some "duplicate key" }
  | .ok st1 =>
      let st2 := SessionStore.increment_message_count st1 sid
      let L := sendQueryReceiveLoop items initSendLoopState
      match L.failure with
      | some err => { events := L.events, store := st2, failed := some err }
      | none =>
          let assistant_seq := SessionStore.get_next_sequence st2.messages sid
          let assistant_msg : ClaudeAgentMessage :=
            { session_id := sid, sequence := assistant_seq, role := .assistant,
              content_blocks := L.content_blocks, duration_ms := some 0,
              cost_usd := L.cost_usd, input_tokens := L.input_tokens,
              output_tokens := L.output_tokens }
          match SessionStore.save_message st2 assistant_msg with
          | .error _ =>
              { events := L.events, store := st2, failed := some "duplicate key" }
          | .ok st3 =>
              let st4 := SessionStore.increment_message_count st3 sid
              let st5 :=
                if L.cost_usd.isSome || L.input_tokens.isSome
                    || L.output_tokens.isSome then
                  SessionStore.update_session_usage st4 sid (L.cost_usd.getD 0)
                    (L.input_tokens.getD 0) (L.output_tokens.getD 0)
                else st4
              { events := L.events ++ [.complete], store := st5, failed := none }

/-- The `query`-while-bound branch of `websocket_agent_endpoint`: every
yielded event is relayed; when the generator raises, the handler's
`except Exception` sends exactly one `error` event carrying the message. -/
def websocket_query_turn (st0 : SessionStore.State) (sid prompt : String)
    (items : List RuntimeItem) : List WireEvent × SessionStore.State :=
  let r := send_query_with_persistence_run st0 sid prompt items
  match r.failed with
  | some e => (r.events ++ [.errorEvent e], r.store)
  | none => (r.events, r.store)

/-- The user message `create_session_with_first_query` saves at sequence 0. -/
def firstUserMsg (sid prompt : String) : ClaudeAgentMessage :=
  { session_id := sid, sequence := 0, role := .user,
    content_blocks := [.text prompt], duration_ms := none, cost_usd := none,
    input_tokens := none, output_tokens := none }

/-- The assistant message `create_session_with_first_query` saves at
sequence 1, from the accumulated blocks and captured usage.  Wall-clock
`duration_ms` is not modelled (recorded as 0). -/
def firstAssistantMsg (sid : String) (L : FirstQueryLoopState) :
    ClaudeAgentMessage :=
  { session_id := sid, sequence := 1, role := .assistant,
    content_blocks := L.content_blocks, duration_ms := some 0,
    cost_usd := L.cost_usd, input_tokens := L.input_tokens,
    output_tokens := L.output_tokens }

/-- The session id available after the first-query stream ends: the one
captured from a message, else the stem of the newest JSONL file in the
project directory. -/
def capturedSessionId (L : FirstQueryLoopState)
    (newest_jsonl_stem : Option String) : Option String :=
  match L.session_id_captured with
  | some sid => some sid
  | none => newest_jsonl_stem

/-- `AgentManager.create_session_with_first_query`'s response generator, run
against a runtime response stream.  `newest_jsonl_stem` models the fallback
recovery of the session id from the most recently modified JSONL file in
the project directory. -/
def create_session_with_first_query_run (st0 : SessionStore.State)
    (prompt : String) (items : List RuntimeItem)
    (newest_jsonl_stem : Option String) : TurnResult :=
  let L := firstQueryReceiveLoop items initFirstQueryLoopState
  match L.failure with
  | some err => { events := L.events, store := st0, failed := some err }
  | none =>
      match capturedSessionId L newest_jsonl_stem with
      | none =>
          { events := L.events, store := st0,
            failed := some "Could not capture session ID from Claude SDK" }
      | some sid =>
          match SessionStore.create_session st0 (ClaudeAgentSession.new sid) with
          | .error _ =>
              { events := L.events, store := st0, failed := some "duplicate key" }
          | .ok st1 =>
              match SessionStore.save_message st1 (firstUserMsg sid prompt) with
              | .error _ =>
                  { events := L.events, store := st1, failed := some "duplicate key" }
              | .ok st2 =>
                  let st3 := SessionStore.increment_message_count st2 sid
                  match SessionStore.save_message st3 (firstAssistantMsg sid L) with
                  | .error _ =>
                      { events := L.events, store := st3,
                        failed := some "duplicate key" }
                  | .ok st4 =>
                      let st5 := SessionStore.increment_message_count st4 sid
                      let st6 :=
                        if L.cost_usd.isSome || L.input_tokens.isSome
                            || L.output_tokens.isSome then
                          SessionStore.update_session_usage st5 sid
                            (L.cost_usd.getD 0) (L.input_tokens.getD 0)
                            (L.output_tokens.getD 0)
                        else st5
                      { events := L.events
                          ++ [.session_id_captured sid, .complete],
                        store := st6, failed := none }

/-- A concrete sample user message, used to evaluate store operations at
concrete inputs. -/
def sampleUserMsg : ClaudeAgentMessage :=
  { session_id := "s", sequence := 0, role := .user,
    content_blocks := [.text "hi"], duration_ms := none, cost_usd := none,
    input_tokens := none, output_tokens := none }

/-- A concrete sample assistant message, used to evaluate store operations
at concrete inputs. -/
def sampleAssistantMsg : ClaudeAgentMessage :=
  { session_id := "s", sequence := 1, role := .assistant,
    content_blocks := [.text "ok"], duration_ms := none, cost_usd := none,
    input_tokens := none, output_tokens := none }

/-- A delta-built accumulated block has non-empty content (tool blocks are
unconstrained). -/
def ContentBlock.deltaContentNonempty : ContentBlock → Prop
  | .text c => ¬ c = ""
  | .thinking c => ¬ c = ""
  | _ => True

instance (b : ContentBlock) : Decidable b.deltaContentNonempty := by
  unfold ContentBlock.deltaContentNonempty
  cases b <;> infer_instance

/-- A text or thinking client event has non-empty content (other events are
unconstrained). -/
def WireEvent.deltaNonempty : WireEvent → Prop
  | .text c => ¬ c = ""
  | .thinking c => ¬ c = ""
  | _ => True

/-- A concrete sample workspace thread, used to evaluate store operations
at concrete inputs. -/
def sampleThread : WorkspaceThread :=
  { workspace_id := "w", execution_environment := "e", claude_session_id := "s",
    message_count := 2, is_active := true, total_cost_usd := 0,
    total_input_tokens := 0, total_output_tokens := 0 }

/-- A concrete sample workspace thread store with one thread, one message
and one replay-log line, all for session "s". -/
def sampleWtStore : WorkspaceThreadStore.State :=
  { threads := [sampleThread],
    messages := [{ claude_session_id := "s", sequence := 0, role := .user,
                   content_blocks := [], duration_ms := none, cost_usd := none,
                   input_tokens := none, output_tokens := none }],
    jsonl_lines := [("s", { line_number := 0, line := "x" })] }

/-- A workspace thread store with no documents at all. -/
def emptyWtStore : WorkspaceThreadStore.State :=
  { threads := [], messages := [], jsonl_lines := [] }

/-- A workspace thread store holding one stored replay-log line for
session "s" and nothing else. -/
def oldLineStore : WorkspaceThreadStore.State :=
  { threads := [], messages := [],
    jsonl_lines := [("s", { line_number := 0, line := "old" })] }

/-! ## Theorems -/

theorem agentAccumStep_text_merge (bs : List ContentBlock) (c0 c : String) :
    agentAccumStep (bs ++ [.text c0]) (.text c) = bs ++ [.text (c0 ++ c)] := by
  simp [agentAccumStep]

theorem agentAccumStep_thinking_merge (bs : List ContentBlock) (c0 c : String) :
    agentAccumStep (bs ++ [.thinking c0]) (.thinking c)
      = bs ++ [.thinking (c0 ++ c)] := by
  simp [agentAccumStep]

theorem agentAccumStep_text_new (bs : List ContentBlock) (c : String)
    (h : ∀ b, bs.getLast? = some b → b.typeField ≠ "text") :
    agentAccumStep bs (.text c) = bs ++ [.text c] := by
  rcases hb : bs.getLast? with _ | b
  · simp [agentAccumStep, hb]
  · have hbt := h b hb
    cases b <;> simp_all [agentAccumStep, ContentBlock.typeField]

theorem agentAccumStep_thinking_new (bs : List ContentBlock) (c : String)
    (h : ∀ b, bs.getLast? = some b → b.typeField ≠ "thinking") :
    agentAccumStep bs (.thinking c) = bs ++ [.thinking c] := by
  rcases hb : bs.getLast? with _ | b
  · simp [agentAccumStep, hb]
  · have hbt := h b hb
    cases b <;> simp_all [agentAccumStep, ContentBlock.typeField]

theorem accumStep_paths_eq (bs : List ContentBlock) (m : WireEvent) :
    agentAccumStep bs m = workflowAccumStep bs m := by
  cases m <;> rfl

/-- **C1.** The stream-accumulation fold satisfies the spec's folding rule:
a text or thinking delta is appended to the trailing content block exactly
when that block has the same tag (otherwise a new block of that tag is
opened), a tool_use or tool_result always appends a new complete block, the
input `[text "a", text "b", tool_use X, text "c"]` yields
`[{text,"ab"}, {tool_use,X}, {text,"c"}]`, and the fold used on the
WebSocket path (`send_query_with_persistence`) and on the SSE path
(`execute_workflow`) is the same function. -/
theorem c1_stream_accumulator_fold_spec :
    (∀ (bs : List ContentBlock) (c0 c : String),
        agentAccumStep (bs ++ [.text c0]) (.text c) = bs ++ [.text (c0 ++ c)]) ∧
    (∀ (bs : List ContentBlock) (c0 c : String),
        agentAccumStep (bs ++ [.thinking c0]) (.thinking c)
          = bs ++ [.thinking (c0 ++ c)]) ∧
    (∀ (bs : List ContentBlock) (c : String),
        (∀ b, bs.getLast? = some b → b.typeField ≠ "text") →
        agentAccumStep bs (.text c) = bs ++ [.text c]) ∧
    (∀ (bs : List ContentBlock) (c : String),
        (∀ b, bs.getLast? = some b → b.typeField ≠ "thinking") →
        agentAccumStep bs (.thinking c) = bs ++ [.thinking c]) ∧
    (∀ (bs : List ContentBlock) (n : String) (i : ToolInput) (t : Option String),
        agentAccumStep bs (.tool_use n i t) = bs ++ [.tool_use n i t]) ∧
    (∀ (bs : List ContentBlock) (c : String) (tid : Option String),
        agentAccumStep bs (.tool_result c tid) = bs ++ [.tool_result c tid]) ∧
    (accumulate [.text "a", .text "b", .tool_use "X" ⟨"x", none⟩ none, .text "c"]
      = [.text "ab", .tool_use "X" ⟨"x", none⟩ none, .text "c"]) ∧
    (∀ (bs : List ContentBlock) (m : WireEvent),
        agentAccumStep bs m = workflowAccumStep bs m) := by
  refine ⟨agentAccumStep_text_merge, agentAccumStep_thinking_merge,
    agentAccumStep_text_new, agentAccumStep_thinking_new, ?_, ?_, ?_,
    accumStep_paths_eq⟩
  · intro bs n i t; rfl
  · intro bs c tid; rfl
  · decide

/-- Witness for C1: the new-block case applied at a concrete input where the
trailing block's tag differs from the delta's tag. -/
theorem c1_stream_accumulator_fold_spec_witness :
    agentAccumStep [ContentBlock.thinking "t"] (WireEvent.text "z")
      = [ContentBlock.thinking "t", ContentBlock.text "z"] :=
  c1_stream_accumulator_fold_spec.2.2.1 [ContentBlock.thinking "t"] "z"
    (by intro b hb; simp at hb; subst hb; decide)

/-- **C2 counterexample.** Two concurrent `send_query_with_persistence`
calls for a session id with a cached client: both proceed past the entry
check; it is not the case that exactly one succeeds while the other fails
with `SessionBusy`. -/
theorem c2_session_busy_counterexample :
    twoConcurrentSends ["s"] "s" = (Except.ok (), Except.ok ()) ∧
    ¬ (((twoConcurrentSends ["s"] "s").1 = Except.ok () ∧
          (twoConcurrentSends ["s"] "s").2
            = Except.error (AgentManagerError.sessionBusy "s")) ∨
        ((twoConcurrentSends ["s"] "s").1
            = Except.error (AgentManagerError.sessionBusy "s") ∧
          (twoConcurrentSends ["s"] "s").2 = Except.ok ())) := by
  have hpair : twoConcurrentSends ["s"] "s" = (Except.ok (), Except.ok ()) := rfl
  refine ⟨hpair, ?_⟩
  rw [hpair]
  simp

/-- **C2 (amended).** `send_query_with_persistence` performs no per-session
mutual exclusion: when a cached client exists for the id, two concurrent
calls both proceed; when none exists, both fail with `No client found`; no
call ever fails with `SessionBusy` (the source contains no such error or
lock). -/
theorem c2_no_mutual_exclusion_amended (clients : List String) (sid : String) :
    (sid ∈ clients →
      twoConcurrentSends clients sid = (Except.ok (), Except.ok ())) ∧
    (sid ∉ clients →
      twoConcurrentSends clients sid
        = (Except.error (AgentManagerError.noClientFound sid),
           Except.error (AgentManagerError.noClientFound sid))) ∧
    (∀ r, sendQueryEntry clients sid
        ≠ Except.error (AgentManagerError.sessionBusy r)) := by
  refine ⟨?_, ?_, ?_⟩
  · intro h
    simp [twoConcurrentSends, sendQueryEntry, h]
  · intro h
    simp [twoConcurrentSends, sendQueryEntry, h]
  · intro r
    unfold sendQueryEntry
    split <;> simp

/-- Witness for C2 (amended): both concurrent sends succeed for a cached
session. -/
theorem c2_no_mutual_exclusion_amended_witness :
    twoConcurrentSends ["s"] "s" = (Except.ok (), Except.ok ()) :=
  (c2_no_mutual_exclusion_amended ["s"] "s").1 (by decide)

theorem updateFirst_append_cons {α} (p : α → Bool) (f : α → α)
    (a b : List α) (s : α) (ha : ∀ x ∈ a, p x = false) (hs : p s = true) :
    updateFirst p f (a ++ s :: b) = a ++ f s :: b := by
  induction a with
  | nil => simp [updateFirst, hs]
  | cons x rest ih =>
      have hx := ha x (by simp)
      simp [updateFirst, hx]
      exact ih (fun y hy => ha y (by simp [hy]))

theorem mongoFindOneSortDesc_eq_none {α} {key : α → ℤ} {l : List α} :
    mongoFindOneSortDesc key l = none ↔ l = [] := by
  cases l with
  | nil => simp [mongoFindOneSortDesc]
  | cons d rest =>
      simp only [mongoFindOneSortDesc]
      cases hr : mongoFindOneSortDesc key rest <;> simp
      split <;> simp

theorem mongoFindOneSortDesc_spec {α} {key : α → ℤ} {l : List α} {d : α}
    (h : mongoFindOneSortDesc key l = some d) :
    d ∈ l ∧ ∀ e ∈ l, key e ≤ key d := by
  induction l generalizing d with
  | nil => simp [mongoFindOneSortDesc] at h
  | cons a rest ih =>
      rw [mongoFindOneSortDesc] at h
      cases hr : mongoFindOneSortDesc key rest with
      | none =>
          rw [hr] at h
          have h2 : some a = some d := h
          simp only [Option.some.injEq] at h2
          subst h2
          have hrest : rest = [] := mongoFindOneSortDesc_eq_none.mp hr
          subst hrest
          simp
      | some b =>
          rw [hr] at h
          have h2 : (if key b > key a then some b else some a) = some d := h
          obtain ⟨hb_mem, hb_max⟩ := ih hr
          by_cases hcmp : key b > key a
          · rw [if_pos hcmp] at h2
            simp only [Option.some.injEq] at h2
            subst h2
            refine ⟨List.mem_cons_of_mem _ hb_mem, ?_⟩
            intro e he
            rcases List.mem_cons.mp he with he | he
            · subst he; omega
            · exact hb_max e he
          · rw [if_neg hcmp] at h2
            simp only [Option.some.injEq] at h2
            subst h2
            refine ⟨List.mem_cons_self _ _, ?_⟩
            intro e he
            rcases List.mem_cons.mp he with he | he
            · subst he; omega
            · have := hb_max e he; omega

/-- **C3.** For every session id, `get_next_sequence` (in both the ulam
session store and the metropolis workspace thread store) returns 1 plus the
maximum sequence over that session's stored messages, and 0 when the
session has no stored messages. -/
theorem c3_get_next_sequence_spec (sid : String) :
    (∀ (messages : List ClaudeAgentMessage),
      ((∀ m ∈ messages, ¬ m.session_id = sid) →
          SessionStore.get_next_sequence messages sid = 0) ∧
      (∀ m0 ∈ messages, m0.session_id = sid →
        ∃ M : ℤ,
          (∃ m ∈ messages, m.session_id = sid ∧ m.sequence = M) ∧
          (∀ m ∈ messages, m.session_id = sid → m.sequence ≤ M) ∧
          SessionStore.get_next_sequence messages sid = 1 + M)) ∧
    (∀ (messages : List WorkspaceMessage),
      ((∀ m ∈ messages, ¬ m.claude_session_id = sid) →
          WorkspaceThreadStore.get_next_sequence messages sid = 0) ∧
      (∀ m0 ∈ messages, m0.claude_session_id = sid →
        ∃ M : ℤ,
          (∃ m ∈ messages, m.claude_session_id = sid ∧ m.sequence = M) ∧
          (∀ m ∈ messages, m.claude_session_id = sid → m.sequence ≤ M) ∧
          WorkspaceThreadStore.get_next_sequence messages sid = 1 + M)) := by
  constructor
  · intro messages
    constructor
    · intro hnone
      have hfil : messages.filter (fun m => m.session_id = sid) = [] := by
        simp only [List.filter_eq_nil_iff]
        intro m hm
        simpa using hnone m hm
      simp [SessionStore.get_next_sequence, hfil, mongoFindOneSortDesc]
    · intro m0 hm0 hsid
      have hmem : m0 ∈ messages.filter (fun m => m.session_id = sid) := by
        simp [List.mem_filter, hm0, hsid]
      cases hfind : mongoFindOneSortDesc (fun m => m.sequence)
          (messages.filter (fun m => m.session_id = sid)) with
      | none =>
          rw [mongoFindOneSortDesc_eq_none.mp hfind] at hmem
          simp at hmem
      | some d =>
          obtain ⟨hd_mem, hd_max⟩ := mongoFindOneSortDesc_spec hfind
          refine ⟨d.sequence, ⟨d, ?_, ?_, rfl⟩, ?_, ?_⟩
          · exact (List.mem_filter.mp hd_mem).1
          · simpa using (List.mem_filter.mp hd_mem).2
          · intro m hm hms
            exact hd_max m (by simp [List.mem_filter, hm, hms])
          · simp [SessionStore.get_next_sequence, hfind]; omega
  · intro messages
    constructor
    · intro hnone
      have hfil : messages.filter (fun m => m.claude_session_id = sid) = [] := by
        simp only [List.filter_eq_nil_iff]
        intro m hm
        simpa using hnone m hm
      simp [WorkspaceThreadStore.get_next_sequence, hfil, mongoFindOneSortDesc]
    · intro m0 hm0 hsid
      have hmem : m0 ∈ messages.filter (fun m => m.claude_session_id = sid) := by
        simp [List.mem_filter, hm0, hsid]
      cases hfind : mongoFindOneSortDesc (fun m => m.sequence)
          (messages.filter (fun m => m.claude_session_id = sid)) with
      | none =>
          rw [mongoFindOneSortDesc_eq_none.mp hfind] at hmem
          simp at hmem
      | some d =>
          obtain ⟨hd_mem, hd_max⟩ := mongoFindOneSortDesc_spec hfind
          refine ⟨d.sequence, ⟨d, ?_, ?_, rfl⟩, ?_, ?_⟩
          · exact (List.mem_filter.mp hd_mem).1
          · simpa using (List.mem_filter.mp hd_mem).2
          · intro m hm hms
            exact hd_max m (by simp [List.mem_filter, hm, hms])
          · simp [WorkspaceThreadStore.get_next_sequence, hfind]; omega

/-- Witness for C3: the theorem applied to a concrete two-message session. -/
theorem c3_get_next_sequence_spec_witness :
    ∃ M : ℤ,
      (∃ m ∈ [sampleUserMsg, sampleAssistantMsg],
          m.session_id = "s" ∧ m.sequence = M) ∧
      (∀ m ∈ [sampleUserMsg, sampleAssistantMsg],
          m.session_id = "s" → m.sequence ≤ M) ∧
      SessionStore.get_next_sequence [sampleUserMsg, sampleAssistantMsg] "s"
        = 1 + M :=
  ((c3_get_next_sequence_spec "s").1 [sampleUserMsg, sampleAssistantMsg]).2
    sampleAssistantMsg (by simp) rfl

/-- **C6 counterexample.** The ulam session store's usage update is additive
on cost, not last-write-wins: starting from a stored running total of 1 USD
and supplying 2 USD, the stored total becomes 3 USD, not the supplied 2. -/
theorem c6_usage_cost_counterexample :
    (SessionStore.update_session_usage
        { sessions := [{ claude_session_id := "s", message_count := 0,
                         is_active := true, total_cost_usd := 1,
                         total_input_tokens := 0, total_output_tokens := 0 }],
          messages := [] } "s" 2 0 0).sessions.map
        (fun s => s.total_cost_usd) = [3] ∧
    (3 : ℚ) ≠ 2 := by
  constructor
  · simp [SessionStore.update_session_usage, updateFirst]
    norm_num
  · norm_num

/-- **C6 (amended).** Token counters are additive in both stores; cost is
last-write-wins (`$set`) only in the workspace thread store, while the ulam
session store increments cost as well (`$inc`): the asymmetric cost rule
does not hold for every store implementing the usage update. -/
theorem c6_usage_update_amended :
    (∀ (msgs : List ClaudeAgentMessage) (a b : List ClaudeAgentSession)
        (s : ClaudeAgentSession) (sid : String) (c : ℚ) (i o : ℤ),
      (∀ x ∈ a, ¬ x.claude_session_id = sid) → s.claude_session_id = sid →
      SessionStore.update_session_usage
          { sessions := a ++ s :: b, messages := msgs } sid c i o
        = { sessions := a ++
              { s with
                  total_cost_usd := s.total_cost_usd + c,
                  total_input_tokens := s.total_input_tokens + i,
                  total_output_tokens := s.total_output_tokens + o } :: b,
            messages := msgs }) ∧
    (∀ (msgs : List WorkspaceMessage) (jl : List (String × JsonlDoc))
        (a b : List WorkspaceThread) (t : WorkspaceThread) (sid : String)
        (c : ℚ) (i o : ℤ),
      (∀ x ∈ a, ¬ x.claude_session_id = sid) → t.claude_session_id = sid →
      WorkspaceThreadStore.update_thread_usage
          { threads := a ++ t :: b, messages := msgs, jsonl_lines := jl }
          sid c i o
        = { threads := a ++
              { t with
                  total_cost_usd := c,
                  total_input_tokens := t.total_input_tokens + i,
                  total_output_tokens := t.total_output_tokens + o } :: b,
            messages := msgs, jsonl_lines := jl }) := by
  constructor
  · intro msgs a b s sid c i o ha hs
    simp only [SessionStore.update_session_usage]
    rw [updateFirst_append_cons _ _ a b s (by simpa using ha) (by simpa using hs)]
  · intro msgs jl a b t sid c i o ha ht
    simp only [WorkspaceThreadStore.update_thread_usage]
    rw [updateFirst_append_cons _ _ a b t (by simpa using ha) (by simpa using ht)]

/-- Witness for C6 (amended): concrete single-session stores. -/
theorem c6_usage_update_amended_witness :
    SessionStore.update_session_usage
        { sessions := [{ claude_session_id := "s", message_count := 0,
                         is_active := true, total_cost_usd := 1,
                         total_input_tokens := 10, total_output_tokens := 20 }],
          messages := [] } "s" 2 3 4
      = { sessions := [{ claude_session_id := "s", message_count := 0,
                         is_active := true, total_cost_usd := 1 + 2,
                         total_input_tokens := 10 + 3,
                         total_output_tokens := 20 + 4 }],
          messages := [] } ∧
    WorkspaceThreadStore.update_thread_usage
        { threads := [{ workspace_id := "w", execution_environment := "e",
                        claude_session_id := "s", message_count := 0,
                        is_active := true, total_cost_usd := 1,
                        total_input_tokens := 10, total_output_tokens := 20 }],
          messages := [], jsonl_lines := [] } "s" 2 3 4
      = { threads := [{ workspace_id := "w", execution_environment := "e",
                        claude_session_id := "s", message_count := 0,
                        is_active := true, total_cost_usd := 2,
                        total_input_tokens := 10 + 3,
                        total_output_tokens := 20 + 4 }],
          messages := [], jsonl_lines := [] } := by
  constructor
  · exact c6_usage_update_amended.1 [] [] []
      { claude_session_id := "s", message_count := 0, is_active := true,
        total_cost_usd := 1, total_input_tokens := 10, total_output_tokens := 20 }
      "s" 2 3 4 (by simp) rfl
  · exact c6_usage_update_amended.2 [] [] [] []
      { workspace_id := "w", execution_environment := "e",
        claude_session_id := "s", message_count := 0, is_active := true,
        total_cost_usd := 1, total_input_tokens := 10, total_output_tokens := 20 }
      "s" 2 3 4 (by simp) rfl

theorem removeFirst_all_not {α} (p : α → Bool) (l : List α)
    (h : l.countP p ≤ 1) : ∀ x ∈ removeFirst p l, p x = false := by
  induction l with
  | nil => simp [removeFirst]
  | cons a rest ih =>
      by_cases hpa : p a = true
      · simp only [removeFirst, hpa, if_true]
        have hz : rest.countP p = 0 := by
          rw [List.countP_cons_of_pos p rest hpa] at h
          omega
        intro x hx
        have := List.countP_eq_zero.mp hz x hx
        simpa using this
      · have hpa2 : p a = false := by simpa using hpa
        simp only [removeFirst, hpa2, Bool.false_eq_true, if_false]
        intro x hx
        rcases List.mem_cons.mp hx with hx | hx
        · subst hx; exact hpa2
        · refine ih ?_ x hx
          rw [List.countP_cons_of_neg p rest (by simp [hpa2])] at h
          exact h

/-- **C9.** Deleting a session removes all its Messages and all its
ReplayLogLines and returns whether the session existed; afterwards looking
the session up returns not-found.  Stated for the metropolis workspace
thread store (`delete_thread`) and the ulam session store
(`delete_session`, which owns no replay-log collection); the `countP`
hypotheses reflect the unique index on `claude_session_id` created by
`create_indexes`. -/
theorem c9_delete_session_cascade :
    (∀ (st : WorkspaceThreadStore.State) (sid : String),
      st.threads.countP (fun t => t.claude_session_id = sid) ≤ 1 →
      (∀ m ∈ (WorkspaceThreadStore.delete_thread st sid).1.messages,
          ¬ m.claude_session_id = sid) ∧
      (∀ j ∈ (WorkspaceThreadStore.delete_thread st sid).1.jsonl_lines,
          ¬ j.1 = sid) ∧
      ((WorkspaceThreadStore.delete_thread st sid).2 = true ↔
          ∃ t ∈ st.threads, t.claude_session_id = sid) ∧
      WorkspaceThreadStore.get_thread
          (WorkspaceThreadStore.delete_thread st sid).1 sid = none) ∧
    (∀ (st : SessionStore.State) (sid : String),
      st.sessions.countP (fun s => s.claude_session_id = sid) ≤ 1 →
      (∀ m ∈ (SessionStore.delete_session st sid).1.messages,
          ¬ m.session_id = sid) ∧
      ((SessionStore.delete_session st sid).2 = true ↔
          ∃ s ∈ st.sessions, s.claude_session_id = sid) ∧
      SessionStore.get_session (SessionStore.delete_session st sid).1 sid
        = none) := by
  constructor
  · intro st sid h
    refine ⟨?_, ?_, ?_, ?_⟩
    · intro m hm
      have := (List.mem_filter.mp hm).2
      simpa using this
    · intro j hj
      have := (List.mem_filter.mp hj).2
      simpa using this
    · simp [WorkspaceThreadStore.delete_thread, WorkspaceThreadStore.delete_jsonl_lines,
        List.any_eq_true]
    · have hall := removeFirst_all_not (fun t => t.claude_session_id = sid)
        st.threads h
      exact List.find?_eq_none.mpr (fun x hx => by simp [hall x hx])
  · intro st sid h
    refine ⟨?_, ?_, ?_⟩
    · intro m hm
      have := (List.mem_filter.mp hm).2
      simpa using this
    · simp [SessionStore.delete_session, List.any_eq_true]
    · have hall := removeFirst_all_not (fun s => s.claude_session_id = sid)
        st.sessions h
      exact List.find?_eq_none.mpr (fun x hx => by simp [hall x hx])

/-- Witness for C9: deleting session "s" from a concrete store; the lookup
afterwards is not-found and the deletion reports that the session existed. -/
theorem c9_delete_session_cascade_witness :
    WorkspaceThreadStore.get_thread
        (WorkspaceThreadStore.delete_thread sampleWtStore "s").1 "s" = none ∧
    (WorkspaceThreadStore.delete_thread sampleWtStore "s").2 = true := by
  obtain ⟨_, _, hex, hget⟩ :=
    c9_delete_session_cascade.1 sampleWtStore "s" (by decide)
  exact ⟨hget, hex.mpr ⟨sampleThread, by simp [sampleWtStore], rfl⟩⟩

theorem string_append_ne_empty_right (c0 c : String) (h : ¬ c = "") :
    ¬ (c0 ++ c) = "" := by
  intro he
  apply h
  have hd : c0.data ++ c.data = [] := congrArg String.data he
  have : c.data = [] := (List.append_eq_nil.mp hd).2
  cases c; simp_all

theorem process_message_deltaNonempty (m : SdkMessage) :
    ∀ e ∈ process_message m, e.deltaNonempty := by
  intro e he
  cases hp : m.payload with
  | streamEvent ev =>
      rw [process_message, hp] at he
      cases ev with
      | content_block_delta d =>
          cases d with
          | text_delta t =>
              by_cases ht : t = "" <;>
                simp [processStreamEvent, ht] at he
              subst he; simpa [WireEvent.deltaNonempty] using ht
          | thinking_delta t =>
              by_cases ht : t = "" <;>
                simp [processStreamEvent, ht] at he
              subst he; simpa [WireEvent.deltaNonempty] using ht
          | other_delta => simp [processStreamEvent] at he
      | other_event => simp [processStreamEvent] at he
  | assistantMessage content =>
      rw [process_message, hp] at he
      rcases List.mem_filterMap.mp he with ⟨b, _, hb⟩
      cases b <;> simp at hb
      subst hb
      simp [createToolUseMessage, WireEvent.deltaNonempty]
  | userMessage content =>
      rw [process_message, hp] at he
      rcases List.mem_filterMap.mp he with ⟨b, _, hb⟩
      cases b <;> simp at hb
      subst hb
      simp [createToolResultMessage, WireEvent.deltaNonempty]
  | resultMessage c i o => rw [process_message, hp] at he; simp at he
  | otherMessage => rw [process_message, hp] at he; simp at he

theorem agentAccumStep_preserves_nonempty (bs : List ContentBlock)
    (e : WireEvent) (hbs : ∀ b ∈ bs, b.deltaContentNonempty)
    (he : e.deltaNonempty) :
    ∀ b ∈ agentAccumStep bs e, b.deltaContentNonempty := by
  intro b hb
  cases e with
  | text c =>
      rw [agentAccumStep] at hb
      cases hl : bs.getLast? with
      | none =>
          rw [hl] at hb
          rcases List.mem_append.mp hb with h | h
          · exact hbs b h
          · rw [List.mem_singleton.mp h]
            simpa [ContentBlock.deltaContentNonempty] using he
      | some last =>
          rw [hl] at hb
          cases last with
          | text c0 =>
              rcases List.mem_append.mp hb with h | h
              · exact hbs b (List.dropLast_subset _ h)
              · rw [List.mem_singleton.mp h]
                simp only [ContentBlock.deltaContentNonempty]
                exact string_append_ne_empty_right c0 c
                  (by simpa [WireEvent.deltaNonempty] using he)
          | thinking c0 =>
              rcases List.mem_append.mp hb with h | h
              · exact hbs b h
              · rw [List.mem_singleton.mp h]
                simpa [ContentBlock.deltaContentNonempty] using he
          | tool_use n i t =>
              rcases List.mem_append.mp hb with h | h
              · exact hbs b h
              · rw [List.mem_singleton.mp h]
                simpa [ContentBlock.deltaContentNonempty] using he
          | tool_result c0 tid =>
              rcases List.mem_append.mp hb with h | h
              · exact hbs b h
              · rw [List.mem_singleton.mp h]
                simpa [ContentBlock.deltaContentNonempty] using he
  | thinking c =>
      rw [agentAccumStep] at hb
      cases hl : bs.getLast? with
      | none =>
          rw [hl] at hb
          rcases List.mem_append.mp hb with h | h
          · exact hbs b h
          · rw [List.mem_singleton.mp h]
            simpa [ContentBlock.deltaContentNonempty] using he
      | some last =>
          rw [hl] at hb
          cases last with
          | thinking c0 =>
              rcases List.mem_append.mp hb with h | h
              · exact hbs b (List.dropLast_subset _ h)
              · rw [List.mem_singleton.mp h]
                simp only [ContentBlock.deltaContentNonempty]
                exact string_append_ne_empty_right c0 c
                  (by simpa [WireEvent.deltaNonempty] using he)
          | text c0 =>
              rcases List.mem_append.mp hb with h | h
              · exact hbs b h
              · rw [List.mem_singleton.mp h]
                simpa [ContentBlock.deltaContentNonempty] using he
          | tool_use n i t =>
              rcases List.mem_append.mp hb with h | h
              · exact hbs b h
              · rw [List.mem_singleton.mp h]
                simpa [ContentBlock.deltaContentNonempty] using he
          | tool_result c0 tid =>
              rcases List.mem_append.mp hb with h | h
              · exact hbs b h
              · rw [List.mem_singleton.mp h]
                simpa [ContentBlock.deltaContentNonempty] using he
  | tool_use n i t =>
      rw [agentAccumStep] at hb
      rcases List.mem_append.mp hb with h | h
      · exact hbs b h
      · rw [List.mem_singleton.mp h]; trivial
  | tool_result c tid =>
      rw [agentAccumStep] at hb
      rcases List.mem_append.mp hb with h | h
      · exact hbs b h
      · rw [List.mem_singleton.mp h]; trivial
  | session_id_captured s => exact hbs b hb
  | complete => exact hbs b hb
  | errorEvent msg => exact hbs b hb

theorem accumFold_preserves_nonempty (events : List WireEvent)
    (bs : List ContentBlock) (hbs : ∀ b ∈ bs, b.deltaContentNonempty)
    (hev : ∀ e ∈ events, e.deltaNonempty) :
    ∀ b ∈ events.foldl agentAccumStep bs, b.deltaContentNonempty := by
  induction events generalizing bs with
  | nil => simpa using hbs
  | cons e rest ih =>
      intro b hb
      refine ih (agentAccumStep bs e)
        (agentAccumStep_preserves_nonempty bs e hbs (hev e (by simp)))
        (fun x hx => hev x (by simp [hx])) b hb

/-- **C10.** A `content_block_delta` whose text or thinking payload is the
empty string produces no client event, a stream event whose type is not
`content_block_delta` produces no client event, and consequently every text
or thinking content block built by folding the handler's output has
non-empty content. -/
theorem c10_empty_delta_no_event :
    (∀ s : Option String,
      process_message ⟨s, .streamEvent (.content_block_delta (.text_delta ""))⟩
        = []) ∧
    (∀ s : Option String,
      process_message
          ⟨s, .streamEvent (.content_block_delta (.thinking_delta ""))⟩ = []) ∧
    (∀ s : Option String, process_message ⟨s, .streamEvent .other_event⟩ = []) ∧
    (∀ (msgs : List SdkMessage),
      ∀ b ∈ accumulate (msgs.flatMap process_message),
        b.deltaContentNonempty) := by
  refine ⟨fun s => rfl, fun s => rfl, fun s => rfl, ?_⟩
  intro msgs b hb
  refine accumFold_preserves_nonempty (msgs.flatMap process_message) []
    (by simp) ?_ b hb
  intro e he
  rcases List.mem_flatMap.mp he with ⟨m, _, hm⟩
  exact process_message_deltaNonempty m e hm

/-- Witness for C10: the block built from a concrete non-empty delta has
non-empty content. -/
theorem c10_empty_delta_no_event_witness :
    ContentBlock.deltaContentNonempty (ContentBlock.text "hello") :=
  c10_empty_delta_no_event.2.2.2
    [⟨none, .streamEvent (.content_block_delta (.text_delta "hello"))⟩]
    (ContentBlock.text "hello") (by decide)

theorem translateCR_no_cr (cs : List Char) (h : '\r' ∉ cs) :
    translateCR cs = cs := by
  induction cs with
  | nil => rfl
  | cons c rest ih =>
      have hc : ¬ c = '\r' := fun hx => h (by simp [hx])
      have hrest : '\r' ∉ rest := fun hx => h (by simp [hx])
      rw [translateCR.eq_def]
      split
      · simp_all
      · simp_all
      · simp_all
      · rename_i hne heq
        injection heq with h1 h2
        subst h1
        subst h2
        rw [ih hrest]

theorem splitOnNl_ne_nil (cs : List Char) : splitOnNl cs ≠ [] := by
  induction cs with
  | nil => simp [splitOnNl]
  | cons c rest ih =>
      rw [splitOnNl]
      by_cases hc : c = '\n'
      · simp [hc]
      · simp only [hc, if_false]
        cases hr : splitOnNl rest with
        | nil => exact absurd hr ih
        | cons h t => simp

theorem splitOnNl_append_newline (l rest : List Char) (hl : '\n' ∉ l) :
    splitOnNl (l ++ '\n' :: rest) = l :: splitOnNl rest := by
  induction l with
  | nil => simp [splitOnNl]
  | cons c l2 ih =>
      have hc : ¬ c = '\n' := fun hx => hl (by simp [hx])
      have hl2 : '\n' ∉ l2 := fun hx => hl (by simp [hx])
      rw [List.cons_append, splitOnNl]
      simp only [hc, if_false]
      rw [ih hl2]

theorem write_jsonl_file_cons (l : String) (ls : List String) :
    write_jsonl_file (l :: ls) = l.data ++ '\n' :: write_jsonl_file ls := by
  simp [write_jsonl_file]

theorem cr_not_in_write (ls : List String) (h : ∀ l ∈ ls, '\r' ∉ l.data) :
    '\r' ∉ write_jsonl_file ls := by
  induction ls with
  | nil => simp [write_jsonl_file]
  | cons l rest ih =>
      rw [write_jsonl_file_cons]
      intro hx
      rcases List.mem_append.mp hx with hx | hx
      · exact h l (by simp) hx
      · rcases List.mem_cons.mp hx with hx | hx
        · simp at hx
        · exact ih (fun y hy => h y (by simp [hy])) hx

theorem splitOnNl_write (ls : List String) (h : ∀ l ∈ ls, '\n' ∉ l.data) :
    splitOnNl (write_jsonl_file ls) = ls.map String.data ++ [[]] := by
  induction ls with
  | nil => simp [write_jsonl_file, splitOnNl]
  | cons l rest ih =>
      rw [write_jsonl_file_cons,
        splitOnNl_append_newline l.data _ (h l (by simp)),
        ih (fun y hy => h y (by simp [hy]))]
      simp

theorem read_write_roundtrip (ls : List String) (h : ∀ l ∈ ls, cleanLine l) :
    read_jsonl_file (some (write_jsonl_file ls))
      = ls.filter (fun l => ¬ l = "") := by
  rw [read_jsonl_file,
    translateCR_no_cr _ (cr_not_in_write ls (fun l hl => (h l hl).2)),
    splitOnNl_write ls (fun l hl => (h l hl).1)]
  rw [List.map_append, List.map_map]
  have hmk : (String.mk ∘ String.data) = id := by
    funext s; rfl
  rw [hmk, List.map_id]
  simp [List.filter_append]

theorem read_write_roundtrip_strong (ls : List String)
    (h : ∀ l ∈ ls, ¬ l = "" ∧ cleanLine l) :
    read_jsonl_file (some (write_jsonl_file ls)) = ls := by
  rw [read_write_roundtrip ls (fun l hl => (h l hl).2)]
  exact List.filter_eq_self.mpr (fun l hl => by simpa using (h l hl).1)

/-- **C4 counterexample.** With an empty stored line set and a non-empty
local file, `restore` is a no-op and `persist` then replaces the empty
stored set with the file's line, so the stored line set after the
restore-persist pair differs from the set held before. -/
theorem c4_restore_persist_counterexample :
    storedLineSet emptyWtStore "s" = [] ∧
    storedLineSet
        (persist_to_mongodb emptyWtStore "s"
          (restore_from_mongodb emptyWtStore "s" (some ['x', '\n'])))
        "s" = ["x"] := by
  constructor
  · rfl
  · decide

/-- **C4 (amended).** `restore` followed by `persist` with no intervening
writes preserves the stored line set, provided the stored set is non-empty
and every stored line is non-empty and free of newline and carriage-return
characters; the stored lines are renumbered in sorted order, so the
resulting line set is a permutation of the original. -/
theorem c4_restore_persist_fixed_point_amended
    (st : WorkspaceThreadStore.State) (sid : String) (file : Option (List Char))
    (hne : ¬ storedLineSet st sid = [])
    (hclean : ∀ l ∈ storedLineSet st sid, ¬ l = "" ∧ cleanLine l) :
    (storedLineSet
        (persist_to_mongodb st sid (restore_from_mongodb st sid file)) sid).Perm
      (storedLineSet st sid) := by
  set docs := (st.jsonl_lines.filter (fun j => j.1 = sid)).map (fun j => j.2)
    with hdocs
  have hlines_perm :
      (WorkspaceThreadStore.get_jsonl_lines st sid).Perm (storedLineSet st sid) := by
    rw [WorkspaceThreadStore.get_jsonl_lines, storedLineSet]
    have h1 := (List.perm_insertionSort
      (fun a b : JsonlDoc => a.line_number ≤ b.line_number) docs).map
      (fun d => d.line)
    rw [← hdocs]
    refine h1.trans ?_
    rw [hdocs, List.map_map]
    exact List.Perm.refl _
  have hmem : ∀ l ∈ WorkspaceThreadStore.get_jsonl_lines st sid,
      ¬ l = "" ∧ cleanLine l :=
    fun l hl => hclean l (hlines_perm.mem_iff.mp hl)
  have hlne : ¬ WorkspaceThreadStore.get_jsonl_lines st sid = [] := by
    intro hx
    exact hne (List.Perm.nil_eq (hx ▸ hlines_perm)).symm
  have hrestore : restore_from_mongodb st sid file
      = some (write_jsonl_file (WorkspaceThreadStore.get_jsonl_lines st sid)) := by
    rw [restore_from_mongodb]
    simp only [List.isEmpty_iff, hlne, if_false]
  have hread : read_jsonl_file (restore_from_mongodb st sid file)
      = WorkspaceThreadStore.get_jsonl_lines st sid := by
    rw [hrestore]
    exact read_write_roundtrip_strong _ hmem
  have hpersist :
      persist_to_mongodb st sid (restore_from_mongodb st sid file)
        = WorkspaceThreadStore.save_jsonl_lines st sid
            (WorkspaceThreadStore.get_jsonl_lines st sid) := by
    rw [persist_to_mongodb, hread]
    simp only [List.isEmpty_iff, hlne, if_false]
  rw [hpersist, WorkspaceThreadStore.save_jsonl_lines]
  simp only [List.isEmpty_iff, hlne, if_false]
  rw [storedLineSet]
  simp only [List.filter_append]
  have hfirst : (st.jsonl_lines.filter (fun j => ¬ j.1 = sid)).filter
      (fun j => j.1 = sid) = [] := by
    rw [List.filter_eq_nil_iff]
    intro a ha
    have := (List.mem_filter.mp ha).2
    simpa using this
  have hsecond : ((WorkspaceThreadStore.get_jsonl_lines st sid).enum.map
        (fun p => (sid, JsonlDoc.mk (p.1 : ℤ) p.2))).filter
      (fun j => j.1 = sid) = (WorkspaceThreadStore.get_jsonl_lines st sid).enum.map
        (fun p => (sid, JsonlDoc.mk (p.1 : ℤ) p.2)) := by
    rw [List.filter_eq_self]
    intro a ha
    rcases List.mem_map.mp ha with ⟨p, _, hp⟩
    subst hp
    simp
  rw [hfirst, hsecond, List.nil_append, List.map_map]
  have hmap : ((WorkspaceThreadStore.get_jsonl_lines st sid).enum.map
      ((fun j : String × JsonlDoc => j.2.line)
        ∘ (fun p : ℕ × String => (sid, JsonlDoc.mk (p.1 : ℤ) p.2))))
      = WorkspaceThreadStore.get_jsonl_lines st sid := by
    have : ((fun j : String × JsonlDoc => j.2.line)
        ∘ (fun p : ℕ × String => (sid, JsonlDoc.mk (p.1 : ℤ) p.2)))
        = Prod.snd := by
      funext p; rfl
    rw [this, List.enum_map_snd]
  rw [hmap]
  exact hlines_perm

/-- Witness for C4 (amended): a concrete store holding one clean line. -/
theorem c4_restore_persist_fixed_point_amended_witness :
    (storedLineSet
        (persist_to_mongodb oldLineStore "s"
          (restore_from_mongodb oldLineStore "s" none)) "s").Perm
      (storedLineSet oldLineStore "s") :=
  c4_restore_persist_fixed_point_amended oldLineStore "s" none (by decide)
    (by decide)

/-- **C5 counterexample.** With a missing local file and a non-empty stored
line set, `persist` leaves the store unchanged instead of replacing the
session's stored lines with the (empty) set of file lines. -/
theorem c5_persist_counterexample :
    persist_to_mongodb oldLineStore "s" none = oldLineStore ∧
    ¬ oldLineStore.jsonl_lines = [] := by
  constructor
  · rfl
  · decide

/-- **C5 (amended).** When the local file yields at least one non-empty
line, `persist` replaces the session's stored lines with exactly the file's
non-empty lines in file order, numbered consecutively from 0, leaving other
sessions' lines untouched; when the file is missing or yields no non-empty
line, `persist` leaves the store unchanged.  Reading a written file returns
its non-empty lines in order. -/
theorem c5_persist_amended (st : WorkspaceThreadStore.State) (sid : String)
    (file : Option (List Char)) :
    (read_jsonl_file file = [] → persist_to_mongodb st sid file = st) ∧
    (¬ read_jsonl_file file = [] →
      ((persist_to_mongodb st sid file).jsonl_lines.filter (fun j => j.1 = sid)
          = (read_jsonl_file file).enum.map
              (fun p => (sid, JsonlDoc.mk (p.1 : ℤ) p.2)) ∧
       (persist_to_mongodb st sid file).jsonl_lines.filter (fun j => ¬ j.1 = sid)
          = st.jsonl_lines.filter (fun j => ¬ j.1 = sid))) ∧
    (∀ ls : List String, (∀ l ∈ ls, cleanLine l) →
      read_jsonl_file (some (write_jsonl_file ls))
        = ls.filter (fun l => ¬ l = "")) ∧
    read_jsonl_file none = [] := by
  refine ⟨?_, ?_, read_write_roundtrip, rfl⟩
  · intro h
    rw [persist_to_mongodb]
    simp [h]
  · intro h
    rw [persist_to_mongodb]
    simp only [List.isEmpty_iff, h, if_false]
    rw [WorkspaceThreadStore.save_jsonl_lines]
    simp only [List.isEmpty_iff, h, if_false]
    constructor
    · simp only [List.filter_append]
      have hfirst : (st.jsonl_lines.filter (fun j => ¬ j.1 = sid)).filter
          (fun j => j.1 = sid) = [] := by
        rw [List.filter_eq_nil_iff]
        intro a ha
        have := (List.mem_filter.mp ha).2
        simpa using this
      have hsecond : ((read_jsonl_file file).enum.map
            (fun p => (sid, JsonlDoc.mk (p.1 : ℤ) p.2))).filter
          (fun j => j.1 = sid) = (read_jsonl_file file).enum.map
            (fun p => (sid, JsonlDoc.mk (p.1 : ℤ) p.2)) := by
        rw [List.filter_eq_self]
        intro a ha
        rcases List.mem_map.mp ha with ⟨p, _, hp⟩
        subst hp
        simp
      rw [hfirst, hsecond, List.nil_append]
    · simp only [List.filter_append]
      have hfirst : (st.jsonl_lines.filter (fun j => ¬ j.1 = sid)).filter
          (fun j => ¬ j.1 = sid) = st.jsonl_lines.filter (fun j => ¬ j.1 = sid) := by
        rw [List.filter_eq_self]
        intro a ha
        exact (List.mem_filter.mp ha).2
      have hsecond : ((read_jsonl_file file).enum.map
            (fun p => (sid, JsonlDoc.mk (p.1 : ℤ) p.2))).filter
          (fun j => ¬ j.1 = sid) = [] := by
        rw [List.filter_eq_nil_iff]
        intro a ha
        rcases List.mem_map.mp ha with ⟨p, _, hp⟩
        subst hp
        simp
      rw [hfirst, hsecond, List.append_nil]

/-- Witness for C5 (amended): reading a concrete written file drops its
empty line and keeps the others in order. -/
theorem c5_persist_amended_witness :
    read_jsonl_file (some (write_jsonl_file ["a", "", "b"])) = ["a", "b"] := by
  have h := (c5_persist_amended emptyWtStore "s" none).2.2.1 ["a", "", "b"]
    (by decide)
  simpa using h

theorem countP_eq_zero_of_all_false {α} (p : α → Bool) (l : List α)
    (h : ∀ x ∈ l, p x = false) : l.countP p = 0 :=
  List.countP_eq_zero.mpr (fun a ha => by simp [h a ha])

theorem process_message_no_error (m : SdkMessage) :
    ∀ e ∈ process_message m, isErrorEvent e = false := by
  intro e he
  cases hp : m.payload with
  | streamEvent ev =>
      rw [process_message, hp] at he
      cases ev with
      | content_block_delta d =>
          cases d with
          | text_delta t =>
              by_cases ht : t = "" <;> simp [processStreamEvent, ht] at he
              subst he; rfl
          | thinking_delta t =>
              by_cases ht : t = "" <;> simp [processStreamEvent, ht] at he
              subst he; rfl
          | other_delta => simp [processStreamEvent] at he
      | other_event => simp [processStreamEvent] at he
  | assistantMessage content =>
      rw [process_message, hp] at he
      rcases List.mem_filterMap.mp he with ⟨b, _, hb⟩
      cases b <;> simp at hb
      subst hb
      simp [createToolUseMessage, isErrorEvent]
  | userMessage content =>
      rw [process_message, hp] at he
      rcases List.mem_filterMap.mp he with ⟨b, _, hb⟩
      cases b <;> simp at hb
      subst hb
      simp [createToolResultMessage, isErrorEvent]
  | resultMessage c i o => rw [process_message, hp] at he; simp at he
  | otherMessage => rw [process_message, hp] at he; simp at he

theorem sendQueryReceiveLoop_error_count (items : List RuntimeItem)
    (s : SendLoopState) :
    (sendQueryReceiveLoop items s).events.countP isErrorEvent
      = s.events.countP isErrorEvent := by
  induction items generalizing s with
  | nil => rfl
  | cons item rest ih =>
      cases item with
      | runtimeFailure err => rfl
      | msg m =>
          obtain ⟨msid, payload⟩ := m
          cases payload <;>
            simp [sendQueryReceiveLoop, ih, List.countP_append,
              countP_eq_zero_of_all_false _ _
                (process_message_no_error ⟨msid, _⟩)]

theorem save_user_message_ok (st : SessionStore.State) (sid prompt : String) :
    SessionStore.save_message st (userMessageOf st sid prompt)
      = .ok { st with messages := st.messages ++ [userMessageOf st sid prompt] } := by
  rw [SessionStore.save_message]
  have hany : st.messages.any (fun x =>
      x.session_id = (userMessageOf st sid prompt).session_id ∧
      x.sequence = (userMessageOf st sid prompt).sequence) = false := by
    rw [List.any_eq_false]
    intro x hx
    simp only [userMessageOf, decide_eq_true_eq, not_and]
    intro h1 h2
    have hmem : x ∈ st.messages.filter (fun m => m.session_id = sid) := by
      simp [List.mem_filter, hx, h1]
    cases hfind : mongoFindOneSortDesc (fun m => m.sequence)
        (st.messages.filter (fun m => m.session_id = sid)) with
    | none =>
        rw [mongoFindOneSortDesc_eq_none.mp hfind] at hmem
        simp at hmem
    | some d =>
        obtain ⟨hd_mem, hd_max⟩ := mongoFindOneSortDesc_spec hfind
        have hle := hd_max x hmem
        rw [SessionStore.get_next_sequence, hfind] at h2
        have h2b : x.sequence = d.sequence + 1 := h2
        omega
  simp only [hany, Bool.false_eq_true, if_false]

/-- **C7 counterexample.** A runtime failure directly after a streamed text
delta: the turn yields the delta and exactly one error event, but the block
accumulated before the failure is not persisted — the resulting store holds
no assistant message at all (only the user message saved before
streaming), refuting the best-effort persistence part of the claim. -/
theorem c7_partial_persist_counterexample :
    (websocket_query_turn { sessions := [], messages := [] } "s" "p"
        [.msg ⟨none, .streamEvent (.content_block_delta (.text_delta "a"))⟩,
         .runtimeFailure "boom"]).1
      = [.text "a", .errorEvent "boom"] ∧
    ((websocket_query_turn { sessions := [], messages := [] } "s" "p"
        [.msg ⟨none, .streamEvent (.content_block_delta (.text_delta "a"))⟩,
         .runtimeFailure "boom"]).2.messages.filter
      (fun m => m.role = .assistant)) = [] := by
  constructor <;> decide

/-- **C7 (amended).** On an internal failure mid-stream during an assistant
turn, exactly one error event is sent to the client for that turn; the
content blocks accumulated before the failure are NOT persisted — the
exception propagates before the assistant save, so the store gains only the
user message saved before streaming and no new assistant message. -/
theorem c7_error_event_amended (st0 : SessionStore.State)
    (sid prompt : String) (items : List RuntimeItem) (err : String)
    (hfail : (sendQueryReceiveLoop items initSendLoopState).failure = some err) :
    (websocket_query_turn st0 sid prompt items).1
      = (sendQueryReceiveLoop items initSendLoopState).events
          ++ [.errorEvent err] ∧
    (websocket_query_turn st0 sid prompt items).1.countP isErrorEvent = 1 ∧
    (websocket_query_turn st0 sid prompt items).2.messages
      = st0.messages ++ [userMessageOf st0 sid prompt] ∧
    (∀ m ∈ (websocket_query_turn st0 sid prompt items).2.messages,
        m.role = .assistant → m ∈ st0.messages) := by
  have hrun : send_query_with_persistence_run st0 sid prompt items
      = { events := (sendQueryReceiveLoop items initSendLoopState).events,
          store := SessionStore.increment_message_count
            { st0 with
                messages := st0.messages ++ [userMessageOf st0 sid prompt] } sid,
          failed := some err } := by
    rw [send_query_with_persistence_run, save_user_message_ok]
    simp only [hfail]
  have hturn : websocket_query_turn st0 sid prompt items
      = ((sendQueryReceiveLoop items initSendLoopState).events
            ++ [.errorEvent err],
         SessionStore.increment_message_count
            { st0 with
                messages := st0.messages ++ [userMessageOf st0 sid prompt] } sid) := by
    rw [websocket_query_turn, hrun]
  refine ⟨by rw [hturn], ?_, ?_, ?_⟩
  · rw [hturn]
    simp only [List.countP_append]
    rw [sendQueryReceiveLoop_error_count items initSendLoopState]
    rfl
  · rw [hturn]
    rfl
  · rw [hturn]
    intro m hm hrole
    simp only [SessionStore.increment_message_count] at hm
    rcases List.mem_append.mp hm with h | h
    · exact h
    · rw [List.mem_singleton.mp h] at hrole
      simp [userMessageOf] at hrole

/-- Witness for C7 (amended): the theorem applied at a concrete failing
stream. -/
theorem c7_error_event_amended_witness :
    (websocket_query_turn { sessions := [], messages := [] } "w" "q"
        [.runtimeFailure "down"]).1.countP isErrorEvent = 1 :=
  (c7_error_event_amended { sessions := [], messages := [] } "w" "q"
      [.runtimeFailure "down"] "down" rfl).2.1

theorem find?_append_singleton {α} (p : α → Bool) (l : List α) (x : α)
    (hl : ∀ y ∈ l, p y = false) (hx : p x = true) :
    (l ++ [x]).find? p = some x := by
  induction l with
  | nil => simp [List.find?_cons, hx]
  | cons a rest ih =>
      have ha := hl a (by simp)
      rw [List.cons_append, List.find?_cons_of_neg _ (by simp [ha])]
      exact ih (fun y hy => hl y (by simp [hy]))

theorem get_session_append_singleton (pre : List ClaudeAgentSession)
    (x : ClaudeAgentSession) (msgs : List ClaudeAgentMessage) (sid : String)
    (hpre : ∀ y ∈ pre,
      (fun t : ClaudeAgentSession => decide (t.claude_session_id = sid)) y
        = false)
    (hx : x.claude_session_id = sid) :
    SessionStore.get_session { sessions := pre ++ [x], messages := msgs } sid
      = some x := by
  simp only [SessionStore.get_session]
  exact find?_append_singleton _ pre x hpre (by simp [hx])

/-- **C8.** After a first query on a fresh connection completes with a
captured session id and no runtime failure: the run raises nothing, the
emitted events end with `session_id_captured` and `complete`, the store
holds exactly two messages for the new session — the user message at
sequence 0 and the assistant message at sequence 1 — and the new session's
`message_count` is 2. -/
theorem c8_first_query_end_to_end (st0 : SessionStore.State)
    (prompt : String) (items : List RuntimeItem) (fallback : Option String)
    (sid : String)
    (hfail : (firstQueryReceiveLoop items initFirstQueryLoopState).failure = none)
    (hcap : capturedSessionId (firstQueryReceiveLoop items initFirstQueryLoopState)
        fallback = some sid)
    (hfresh_s : ∀ s ∈ st0.sessions, ¬ s.claude_session_id = sid)
    (hfresh_m : ∀ m ∈ st0.messages, ¬ m.session_id = sid) :
    (create_session_with_first_query_run st0 prompt items fallback).failed
        = none ∧
    (create_session_with_first_query_run st0 prompt items fallback).events
      = (firstQueryReceiveLoop items initFirstQueryLoopState).events
          ++ [.session_id_captured sid, .complete] ∧
    ((create_session_with_first_query_run st0 prompt items
          fallback).store.messages.filter (fun m => m.session_id = sid))
      = [firstUserMsg sid prompt,
         firstAssistantMsg sid (firstQueryReceiveLoop items initFirstQueryLoopState)] ∧
    (∃ s, SessionStore.get_session
        (create_session_with_first_query_run st0 prompt items fallback).store sid
          = some s ∧ s.message_count = 2) := by
  have hpre_s : ∀ y ∈ st0.sessions,
      (fun t : ClaudeAgentSession => decide (t.claude_session_id = sid)) y
        = false :=
    fun y hy => by simpa using hfresh_s y hy
  have hcreate : SessionStore.create_session st0 (ClaudeAgentSession.new sid)
      = .ok { sessions := st0.sessions ++ [ClaudeAgentSession.new sid],
              messages := st0.messages } := by
    rw [SessionStore.create_session]
    have hany : st0.sessions.any (fun t =>
        t.claude_session_id = (ClaudeAgentSession.new sid).claude_session_id)
          = false :=
      List.any_eq_false.mpr
        (fun x hx => by simpa [ClaudeAgentSession.new] using hfresh_s x hx)
    simp only [hany, Bool.false_eq_true, if_false]
  have hsave1 : SessionStore.save_message
      { sessions := st0.sessions ++ [ClaudeAgentSession.new sid],
        messages := st0.messages } (firstUserMsg sid prompt)
      = .ok { sessions := st0.sessions ++ [ClaudeAgentSession.new sid],
              messages := st0.messages ++ [firstUserMsg sid prompt] } := by
    rw [SessionStore.save_message]
    have hany : st0.messages.any (fun x =>
        x.session_id = (firstUserMsg sid prompt).session_id ∧
        x.sequence = (firstUserMsg sid prompt).sequence) = false :=
      List.any_eq_false.mpr (fun x hx => by
        simp only [firstUserMsg, decide_eq_true_eq, not_and]
        intro h1 _
        exact hfresh_m x hx h1)
    simp only [hany, Bool.false_eq_true, if_false]
  have hstep3 : SessionStore.increment_message_count
      { sessions := st0.sessions ++ [ClaudeAgentSession.new sid],
        messages := st0.messages ++ [firstUserMsg sid prompt] } sid
      = { sessions := st0.sessions
            ++ [{ ClaudeAgentSession.new sid with
                  message_count :=
                    (ClaudeAgentSession.new sid).message_count + 1 }],
          messages := st0.messages ++ [firstUserMsg sid prompt] } := by
    rw [SessionStore.increment_message_count]
    simp only
    rw [updateFirst_append_cons _ _ st0.sessions [] (ClaudeAgentSession.new sid)
      hpre_s (by simp [ClaudeAgentSession.new])]
  have hsave2 : SessionStore.save_message
      { sessions := st0.sessions
          ++ [{ ClaudeAgentSession.new sid with
                message_count := (ClaudeAgentSession.new sid).message_count + 1 }],
        messages := st0.messages ++ [firstUserMsg sid prompt] }
      (firstAssistantMsg sid (firstQueryReceiveLoop items initFirstQueryLoopState))
      = Except.ok
          { sessions := st0.sessions
              ++ [{ ClaudeAgentSession.new sid with
                    message_count :=
                      (ClaudeAgentSession.new sid).message_count + 1 }],
            messages := st0.messages ++ [firstUserMsg sid prompt,
              firstAssistantMsg sid
                (firstQueryReceiveLoop items initFirstQueryLoopState)] } := by
    rw [SessionStore.save_message]
    have hany : (st0.messages ++ [firstUserMsg sid prompt]).any (fun x =>
        x.session_id = (firstAssistantMsg sid
            (firstQueryReceiveLoop items initFirstQueryLoopState)).session_id ∧
        x.sequence = (firstAssistantMsg sid
            (firstQueryReceiveLoop items initFirstQueryLoopState)).sequence)
          = false := by
      refine List.any_eq_false.mpr (fun x hx => ?_)
      rcases List.mem_append.mp hx with hx | hx
      · simp only [firstAssistantMsg, decide_eq_true_eq, not_and]
        intro h1 _
        exact hfresh_m x hx h1
      · rw [List.mem_singleton.mp hx]
        simp [firstUserMsg, firstAssistantMsg]
    simp only [hany, Bool.false_eq_true, if_false]
    simp
  have hstep5 : SessionStore.increment_message_count
      { sessions := st0.sessions
          ++ [{ ClaudeAgentSession.new sid with
                message_count := (ClaudeAgentSession.new sid).message_count + 1 }],
        messages := st0.messages ++ [firstUserMsg sid prompt,
          firstAssistantMsg sid
            (firstQueryReceiveLoop items initFirstQueryLoopState)] } sid
      = { sessions := st0.sessions
            ++ [{ ClaudeAgentSession.new sid with message_count :=
                  (ClaudeAgentSession.new sid).message_count + 1 + 1 }],
          messages := st0.messages ++ [firstUserMsg sid prompt,
            firstAssistantMsg sid
              (firstQueryReceiveLoop items initFirstQueryLoopState)] } := by
    rw [SessionStore.increment_message_count]
    simp only
    rw [updateFirst_append_cons _ _ st0.sessions []
      { ClaudeAgentSession.new sid with
        message_count := (ClaudeAgentSession.new sid).message_count + 1 }
      hpre_s (by simp [ClaudeAgentSession.new])]
  have hrun : create_session_with_first_query_run st0 prompt items fallback
      = { events := (firstQueryReceiveLoop items initFirstQueryLoopState).events
            ++ [.session_id_captured sid, .complete],
          store :=
            if (firstQueryReceiveLoop items
                  initFirstQueryLoopState).cost_usd.isSome
                || (firstQueryReceiveLoop items
                      initFirstQueryLoopState).input_tokens.isSome
                || (firstQueryReceiveLoop items
                      initFirstQueryLoopState).output_tokens.isSome then
              SessionStore.update_session_usage
                { sessions := st0.sessions
                    ++ [{ ClaudeAgentSession.new sid with message_count :=
                          (ClaudeAgentSession.new sid).message_count + 1 + 1 }],
                  messages := st0.messages ++ [firstUserMsg sid prompt,
                    firstAssistantMsg sid
                      (firstQueryReceiveLoop items initFirstQueryLoopState)] }
                sid
                ((firstQueryReceiveLoop items
                    initFirstQueryLoopState).cost_usd.getD 0)
                ((firstQueryReceiveLoop items
                    initFirstQueryLoopState).input_tokens.getD 0)
                ((firstQueryReceiveLoop items
                    initFirstQueryLoopState).output_tokens.getD 0)
            else
              { sessions := st0.sessions
                  ++ [{ ClaudeAgentSession.new sid with message_count :=
                        (ClaudeAgentSession.new sid).message_count + 1 + 1 }],
                messages := st0.messages ++ [firstUserMsg sid prompt,
                  firstAssistantMsg sid
                    (firstQueryReceiveLoop items initFirstQueryLoopState)] },
          failed := none } := by
    rw [create_session_with_first_query_run]
    simp only [hfail, hcap, hcreate, hsave1, hstep3, hsave2, hstep5]
  have husage : SessionStore.update_session_usage
      { sessions := st0.sessions
          ++ [{ ClaudeAgentSession.new sid with message_count :=
                (ClaudeAgentSession.new sid).message_count + 1 + 1 }],
        messages := st0.messages ++ [firstUserMsg sid prompt,
          firstAssistantMsg sid
            (firstQueryReceiveLoop items initFirstQueryLoopState)] }
      sid
      ((firstQueryReceiveLoop items initFirstQueryLoopState).cost_usd.getD 0)
      ((firstQueryReceiveLoop items initFirstQueryLoopState).input_tokens.getD 0)
      ((firstQueryReceiveLoop items initFirstQueryLoopState).output_tokens.getD 0)
      = { sessions := st0.sessions
            ++ [{ ClaudeAgentSession.new sid with
                  message_count :=
                    (ClaudeAgentSession.new sid).message_count + 1 + 1,
                  total_cost_usd := (ClaudeAgentSession.new sid).total_cost_usd
                    + (firstQueryReceiveLoop items
                        initFirstQueryLoopState).cost_usd.getD 0,
                  total_input_tokens :=
                    (ClaudeAgentSession.new sid).total_input_tokens
                      + (firstQueryReceiveLoop items
                          initFirstQueryLoopState).input_tokens.getD 0,
                  total_output_tokens :=
                    (ClaudeAgentSession.new sid).total_output_tokens
                      + (firstQueryReceiveLoop items
                          initFirstQueryLoopState).output_tokens.getD 0 }],
          messages := st0.messages ++ [firstUserMsg sid prompt,
            firstAssistantMsg sid
              (firstQueryReceiveLoop items initFirstQueryLoopState)] } := by
    rw [SessionStore.update_session_usage]
    simp only
    rw [updateFirst_append_cons _ _ st0.sessions []
      { ClaudeAgentSession.new sid with message_count :=
        (ClaudeAgentSession.new sid).message_count + 1 + 1 }
      hpre_s (by simp [ClaudeAgentSession.new])]
  have hmsgs : (create_session_with_first_query_run st0 prompt items
      fallback).store.messages
      = st0.messages ++ [firstUserMsg sid prompt,
          firstAssistantMsg sid
            (firstQueryReceiveLoop items initFirstQueryLoopState)] := by
    rw [hrun]
    split
    · rw [husage]
    · rfl
  refine ⟨by rw [hrun], by rw [hrun], ?_, ?_⟩
  · rw [hmsgs, List.filter_append]
    have hfirst : st0.messages.filter (fun m => m.session_id = sid) = [] :=
      List.filter_eq_nil_iff.mpr (fun m hm => by simpa using hfresh_m m hm)
    rw [hfirst, List.nil_append]
    simp [firstUserMsg, firstAssistantMsg]
  · rw [hrun]
    split
    · rw [husage]
      exact ⟨_, get_session_append_singleton st0.sessions _ _ sid hpre_s
        (by simp [ClaudeAgentSession.new]),
        by norm_num [ClaudeAgentSession.new]⟩
    · exact ⟨_, get_session_append_singleton st0.sessions _ _ sid hpre_s
        (by simp [ClaudeAgentSession.new]),
        by norm_num [ClaudeAgentSession.new]⟩

/-- Witness for C8: a concrete first query whose stream carries the session
id and one text delta. -/
theorem c8_first_query_end_to_end_witness :
    (create_session_with_first_query_run { sessions := [], messages := [] }
        "2+2?" [.msg ⟨some "sid1",
          .streamEvent (.content_block_delta (.text_delta "4"))⟩] none).failed
        = none ∧
    (create_session_with_first_query_run { sessions := [], messages := [] }
        "2+2?" [.msg ⟨some "sid1",
          .streamEvent (.content_block_delta (.text_delta "4"))⟩] none).events
      = (firstQueryReceiveLoop
            [.msg ⟨some "sid1",
              .streamEvent (.content_block_delta (.text_delta "4"))⟩]
            initFirstQueryLoopState).events
          ++ [.session_id_captured "sid1", .complete] ∧
    ((create_session_with_first_query_run { sessions := [], messages := [] }
          "2+2?" [.msg ⟨some "sid1",
            .streamEvent (.content_block_delta (.text_delta "4"))⟩]
          none).store.messages.filter (fun m => m.session_id = "sid1"))
      = [firstUserMsg "sid1" "2+2?",
         firstAssistantMsg "sid1" (firstQueryReceiveLoop
            [.msg ⟨some "sid1",
              .streamEvent (.content_block_delta (.text_delta "4"))⟩]
            initFirstQueryLoopState)] ∧
    (∃ s, SessionStore.get_session
        (create_session_with_first_query_run { sessions := [], messages := [] }
          "2+2?" [.msg ⟨some "sid1",
            .streamEvent (.content_block_delta (.text_delta "4"))⟩]
          none).store "sid1"
          = some s ∧ s.message_count = 2) :=
  c8_first_query_end_to_end { sessions := [], messages := [] } "2+2?"
    [.msg ⟨some "sid1", .streamEvent (.content_block_delta (.text_delta "4"))⟩]
    none "sid1" rfl rfl (by simp) (by simp)

end Metropolis
